import Mathlib

/-!
Verification of the librfc repository (dryproject/librfc) against its
natural-language specification.

The development shallowly embeds the three components:

* the RFC 4627 streaming JSON writer (`src/rfc/rfc4627/json_writer.cc`),
* the RFC 3174 SHA-1 digest value type (`src/rfc/rfc3174/sha1.h`),
* the non-owning C-string view (`src/rfc/util/str.h`).

Bytes are modelled as `Nat` values below 256; a C string is modelled as the
list of its bytes strictly before the terminating NUL (hence the list never
contains `0`).  Each writer member function becomes a Lean function from the
writer state to a `JwOut` record holding the optional exception raised by the
call, the writer state after the call, and the bytes the call wrote to the
sink.  The source code never checks the return values of `fputc`/`fputs`, so
the sink is modelled as unconditionally accepting bytes; the result of
`fflush` is likewise dropped by the source (`json_writer::flush` has an empty
TODO branch), so `jw_flush` takes the `fflush` outcome as a parameter and
ignores it.  Exceptions and the `assert` in `decrement_depth` are modelled
through the `err` field; every throwing path in the source throws before any
mutation or any sink write, so the `w` field on an error path carries the
unchanged writer state.
-/

/-! ### JSON writer: data model

The `.cc` file indexes a per-depth state array `_state[_depth]` with tags
`object_begin`, `array_begin`, `array_element`; the header in the tree only
declares the tag `none` (value 0).  The specification (§3) lists the full tag
set, adding `object_key`, `object_value` and the depth-0 sentinels `document`
and `document_done`.  The model carries the union of both lists so that every
tag either artifact mentions is representable; `insert_separator` in the
source switches on the tag and is total (a `default:` branch), so the extra
tags do not change its embedded behaviour. -/

inductive JwState where
  | none
  | document
  | document_done
  | array_begin
  | array_element
  | object_begin
  | object_key
  | object_value
deriving DecidableEq, Repr

/-- Exceptions and assertion stops observable from a writer call:
`invalid_argument` models a thrown `std::invalid_argument` with its message,
`assertion_failure` models a failed `assert`. -/
inductive JwError where
  | invalid_argument (msg : String)
  | assertion_failure
deriving DecidableEq, Repr

/-- The writer's mutable state: `_depth` and the per-depth tag array
`_state` (modelled as a total function from depths to tags, zero-initialized
to the tag of value 0, i.e. `JwState.none`). -/
structure JwWriter where
  depth : Nat
  tags : Nat → JwState

/-- Result of one writer call: the exception raised (if any), the writer
state after the call, and the bytes written to the sink during the call. -/
structure JwOut where
  err : Option JwError
  w : JwWriter
  out : List Nat

/-- A freshly constructed writer: depth 0, state array zero-initialized. -/
def jw_fresh : JwWriter := ⟨0, fun _ => JwState.none⟩

/-- Embeds `json_writer::insert_separator`: switch on `_state[_depth]`;
only `state::array_element` writes a byte, a `,` (0x2C); every other tag
falls into the `default:` branch and writes nothing. -/
def jw_insert_separator : JwState → List Nat
  | JwState.array_element => [0x2C]
  | _ => []

/-- The tag at the top of the stack, `_state[_depth]`. -/
def jw_top (w : JwWriter) : JwState := w.tags w.depth

/-- Modelled from the spec: the writer's `set_state` member is declared and
called in the source (`json_writer.cc`) but its definition is not in the
tree; per §3 and §9 of the spec the per-depth state stack holds one tag per
open level, so `set_state(s)` stores `s` at the current depth. -/
def jw_set_state (w : JwWriter) (s : JwState) : JwWriter :=
  ⟨w.depth, Function.update w.tags w.depth s⟩

/-- Embeds `json_writer::begin_object`: `insert_separator()` (reads the tag
at the old depth), `insert_whitespace()` (emits nothing), `increment_depth()`,
`set_state(state::object_begin)`, then `write('{')` (0x7B). -/
def jw_begin_object (w : JwWriter) : JwOut :=
  let sep := jw_insert_separator (jw_top w)
  let w2 := jw_set_state ⟨w.depth + 1, w.tags⟩ JwState.object_begin
  ⟨Option.none, w2, sep ++ [0x7B]⟩

/-- Embeds `json_writer::finish_object`: `decrement_depth()` (which
`assert`s `_depth >= 1`), `insert_whitespace()`, then `write('}')` (0x7D).
The assertion stop is modelled as `JwError.assertion_failure`. -/
def jw_finish_object (w : JwWriter) : JwOut :=
  if w.depth = 0 then ⟨Option.some JwError.assertion_failure, w, []⟩
  else ⟨Option.none, ⟨w.depth - 1, w.tags⟩, [0x7D]⟩

/-- Embeds `json_writer::begin_array`: like `begin_object` but pushes
`state::array_begin` and writes `[` (0x5B). -/
def jw_begin_array (w : JwWriter) : JwOut :=
  let sep := jw_insert_separator (jw_top w)
  let w2 := jw_set_state ⟨w.depth + 1, w.tags⟩ JwState.array_begin
  ⟨Option.none, w2, sep ++ [0x5B]⟩

/-- Embeds `json_writer::finish_array`: `decrement_depth()` then
`write(']')` (0x5D). -/
def jw_finish_array (w : JwWriter) : JwOut :=
  if w.depth = 0 then ⟨Option.some JwError.assertion_failure, w, []⟩
  else ⟨Option.none, ⟨w.depth - 1, w.tags⟩, [0x5D]⟩

/-- Embeds `json_writer::write_null`: separator, whitespace (nothing), then
the four bytes of `null`.  The source updates no state tag here. -/
def jw_write_null (w : JwWriter) : JwOut :=
  ⟨Option.none, w, jw_insert_separator (jw_top w) ++ [0x6E, 0x75, 0x6C, 0x6C]⟩

/-- Embeds `json_writer::write_boolean`: separator, then the bytes of
`true` or `false`. -/
def jw_write_boolean (b : Bool) (w : JwWriter) : JwOut :=
  ⟨Option.none, w,
    jw_insert_separator (jw_top w) ++
      (if b then [0x74, 0x72, 0x75, 0x65] else [0x66, 0x61, 0x6C, 0x73, 0x65])⟩

/-- A C `double` argument as far as the writer inspects it: `std::isinf`
and `std::isnan` classify it as an infinity, a NaN, or a finite value; the
finite payload is kept abstractly as the rational the double denotes. -/
inductive CDouble where
  | nan
  | inf (neg : Bool)
  | finite (val : ℚ)

/-- Embeds `json_writer::write_number(double)`.  The source first throws
`std::invalid_argument("Infinity cannot be serialized in JSON")` when
`std::isinf(value)`, then `std::invalid_argument("NaN cannot be serialized
in JSON")` when `std::isnan(value)` — both before `insert_separator` and
before any byte reaches the sink.  For finite values it emits the separator
and then `fprintf(_stream, "%.20g", value)`; that libc rendering is external
to the repository and is passed in as `fmt`. -/
def jw_write_number_double (fmt : ℚ → List Nat) (v : CDouble) (w : JwWriter) : JwOut :=
  match v with
  | CDouble.inf _ =>
      ⟨Option.some (JwError.invalid_argument "Infinity cannot be serialized in JSON"), w, []⟩
  | CDouble.nan =>
      ⟨Option.some (JwError.invalid_argument "NaN cannot be serialized in JSON"), w, []⟩
  | CDouble.finite q =>
      ⟨Option.none, w, jw_insert_separator (jw_top w) ++ fmt q⟩

/-- An uppercase hexadecimal digit byte for a value below 16, as produced by
`fprintf` with the `%X` conversion: `0`‥`9` then `A`‥`F`. -/
def jw_hex_digit (n : Nat) : Nat := if n < 10 then 0x30 + n else 0x37 + n

/-- The four bytes `fprintf(_stream, "%04X", value)` writes for a value
below 0x10000. -/
def jw_hex4 (n : Nat) : List Nat :=
  [jw_hex_digit (n / 4096 % 16), jw_hex_digit (n / 256 % 16),
   jw_hex_digit (n / 16 % 16), jw_hex_digit (n % 16)]

/-- Embeds `json_writer::write_char`: the eight special-cased escapes, then
`\u` followed by `%04X` for the remaining bytes at or below 0x1F, and the
byte itself verbatim otherwise. -/
def jw_write_char (b : Nat) : List Nat :=
  match b with
  | 0x22 => [0x5C, 0x22]
  | 0x5C => [0x5C, 0x5C]
  | 0x2F => [0x5C, 0x2F]
  | 0x08 => [0x5C, 0x62]
  | 0x0C => [0x5C, 0x66]
  | 0x0A => [0x5C, 0x6E]
  | 0x0D => [0x5C, 0x72]
  | 0x09 => [0x5C, 0x74]
  | _ => if b ≤ 0x1F then [0x5C, 0x75] ++ jw_hex4 b else [b]

/-- Embeds `json_writer::write_string(const char*)`: a null pointer
(`Option.none`) delegates to `write_null`; otherwise separator, opening
quote, `write_char` on each byte up to the terminating NUL, closing quote.
The argument`Option.some bs` carries the bytes strictly before the NUL. -/
def jw_write_string (v : Option (List Nat)) (w : JwWriter) : JwOut :=
  match v with
  | Option.none => jw_write_null w
  | Option.some bs =>
      ⟨Option.none, w,
        jw_insert_separator (jw_top w) ++ [0x22] ++ (bs.map jw_write_char).flatten ++ [0x22]⟩

/-- Embeds `json_writer::flush`: calls `std::fflush` and discards its
result (the failure branch is an empty TODO).  `ffok` is the outcome of the
`fflush` call; the writer ignores it, changes no state and reports no
error. -/
def jw_flush (_ffok : Bool) (w : JwWriter) : JwOut :=
  ⟨Option.none, w, []⟩

/-- Follows the spec's words (§4.1 separator table): the single separator
byte emitted before a value or key for each top-of-stack state — nothing
for `document`, `array_begin`, `object_begin`; a `,` (0x2C) for
`array_element` and `object_value`; a `:` (0x3A) for `object_key`.  Kept
distinct from `jw_insert_separator`, which embeds the source. -/
def jw_separator_spec : JwState → List Nat
  | JwState.document => []
  | JwState.array_begin => []
  | JwState.array_element => [0x2C]
  | JwState.object_begin => []
  | JwState.object_value => [0x2C]
  | JwState.object_key => [0x3A]
  | _ => []

/-- Follows the spec's words (§4.3 escaping table): `"`, `\`, `/`, and the
five control-character shorthands escape with a backslash; every other byte
at or below 0x1F becomes `\u00XX` with `XX` the uppercase hex of the byte;
every byte at or above 0x20 is copied verbatim.  Kept distinct from
`jw_write_char`, which embeds the source. -/
def jw_escape_spec (b : Nat) : List Nat :=
  if b = 0x22 then [0x5C, 0x22]
  else if b = 0x5C then [0x5C, 0x5C]
  else if b = 0x2F then [0x5C, 0x2F]
  else if b = 0x08 then [0x5C, 0x62]
  else if b = 0x0C then [0x5C, 0x66]
  else if b = 0x0A then [0x5C, 0x6E]
  else if b = 0x0D then [0x5C, 0x72]
  else if b = 0x09 then [0x5C, 0x74]
  else if b ≤ 0x1F then
    [0x5C, 0x75, 0x30, 0x30, jw_hex_digit (b / 16 % 16), jw_hex_digit (b % 16)]
  else [b]

/-- The numeric value of one hexadecimal digit byte (digits, uppercase and
lowercase letters), per the RFC 4627 `HEXDIG` rule. -/
def jw_hex_val (h : Nat) : Option Nat :=
  if 0x30 ≤ h ∧ h ≤ 0x39 then Option.some (h - 0x30)
  else if 0x41 ≤ h ∧ h ≤ 0x46 then Option.some (h - 0x37)
  else if 0x61 ≤ h ∧ h ≤ 0x66 then Option.some (h - 0x57)
  else Option.none

/-- One character of an RFC 4627 string body, parsed from the front of a
byte list: either one of the nine two-byte escapes, a `\uXXXX` escape, or a
single unescaped byte (any byte at or above 0x20 other than `"` and `\`).
Returns the decoded code point (below 0x100 here, so a byte) and the rest
of the input. -/
def jw_decode_char : List Nat → Option (Nat × List Nat)
  | 0x5C :: 0x22 :: r => Option.some (0x22, r)
  | 0x5C :: 0x5C :: r => Option.some (0x5C, r)
  | 0x5C :: 0x2F :: r => Option.some (0x2F, r)
  | 0x5C :: 0x62 :: r => Option.some (0x08, r)
  | 0x5C :: 0x66 :: r => Option.some (0x0C, r)
  | 0x5C :: 0x6E :: r => Option.some (0x0A, r)
  | 0x5C :: 0x72 :: r => Option.some (0x0D, r)
  | 0x5C :: 0x74 :: r => Option.some (0x09, r)
  | 0x5C :: 0x75 :: a :: b :: c :: d :: r =>
      match jw_hex_val a, jw_hex_val b, jw_hex_val c, jw_hex_val d with
      | Option.some x, Option.some y, Option.some z, Option.some u =>
          Option.some (x * 4096 + y * 256 + z * 16 + u, r)
      | _, _, _, _ => Option.none
  | 0x5C :: _ => Option.none
  | b :: r => if 0x20 ≤ b ∧ b ≠ 0x22 ∧ b ≠ 0x5C then Option.some (b, r) else Option.none
  | [] => Option.none

/-! ### JSON writer: container-operation runner (for the depth claims) -/

/-- The four container operations of the writer. -/
inductive JwOp where
  | begin_object
  | finish_object
  | begin_array
  | finish_array
deriving DecidableEq, Repr

/-- Dispatch one container operation to its embedded member function. -/
def jw_step : JwOp → JwWriter → JwOut
  | JwOp.begin_object, w => jw_begin_object w
  | JwOp.finish_object, w => jw_finish_object w
  | JwOp.begin_array, w => jw_begin_array w
  | JwOp.finish_array, w => jw_finish_array w

/-- Run a sequence of container operations in order; an exception or a
failed assertion aborts the run. -/
def jw_run : List JwOp → JwWriter → Except JwError JwWriter
  | [], w => Except.ok w
  | op :: rest, w =>
      match (jw_step op w).err with
      | Option.some e => Except.error e
      | Option.none => jw_run rest (jw_step op w).w

/-- Whether an operation is one of the two `begin_*` calls. -/
def jw_is_begin : JwOp → Bool
  | JwOp.begin_object => true
  | JwOp.begin_array => true
  | _ => false

/-- Whether an operation is one of the two `finish_*` calls. -/
def jw_is_finish : JwOp → Bool
  | JwOp.finish_object => true
  | JwOp.finish_array => true
  | _ => false

/-- Number of `begin_*` calls in a sequence. -/
def jw_begin_count (l : List JwOp) : Nat := (l.filter jw_is_begin).length

/-- Number of `finish_*` calls in a sequence. -/
def jw_finish_count (l : List JwOp) : Nat := (l.filter jw_is_finish).length

/-- Balanced sequences of container operations: empty, a balanced body
wrapped in `begin_object`/`finish_object` or in `begin_array`/`finish_array`,
or two balanced sequences in succession. -/
inductive JwBalanced : List JwOp → Prop where
  | nil : JwBalanced []
  | obj : ∀ {l : List JwOp}, JwBalanced l →
      JwBalanced (JwOp.begin_object :: l ++ [JwOp.finish_object])
  | arr : ∀ {l : List JwOp}, JwBalanced l →
      JwBalanced (JwOp.begin_array :: l ++ [JwOp.finish_array])
  | app : ∀ {l₁ l₂ : List JwOp}, JwBalanced l₁ → JwBalanced l₂ →
      JwBalanced (l₁ ++ l₂)

/-! ### SHA-1 digest value type (`src/rfc/rfc3174/sha1.h`)

A digest is its 20-byte buffer `_data`, modelled as a function from
`Fin 20` to bytes.  Every constructor of the source first applies the
default member initializer `std::uint8_t _data[size] = {}` (all zeroes) and
then runs its body. -/

/-- Embeds the default constructor: all 20 bytes zero. -/
def sha1_default : Fin 20 → Nat := fun _ => 0

/-- Embeds `sha1::sha1(const std::uint8_t* const data)`: the body is
`*_data = *data;`, which assigns only `_data[0] = data[0]`; the remaining
19 bytes keep their zero default. -/
def sha1_from_ptr (b : Fin 20 → Nat) : Fin 20 → Nat :=
  fun i => if i = 0 then b 0 else 0

/-- Embeds `sha1::sha1(const sha1& other)`: the body is
`*_data = *other._data;`, again assigning only byte 0. -/
def sha1_copy (d : Fin 20 → Nat) : Fin 20 → Nat :=
  fun i => if i = 0 then d 0 else 0

/-- The 20 bytes of a digest in index order. -/
def sha1_bytes (d : Fin 20 → Nat) : List Nat := (List.finRange 20).map d

/-- `std::memcmp` over two equal-length byte lists: sign of the first
differing byte pair, 0 when none differs. -/
def sha1_memcmp : List Nat → List Nat → Int
  | a :: xs, b :: ys =>
      if a < b then -1 else if b < a then 1 else sha1_memcmp xs ys
  | _, _ => 0

/-- Embeds `sha1::compare`: `std::memcmp(_data, other._data, 20)`. -/
def sha1_compare (x y : Fin 20 → Nat) : Int :=
  sha1_memcmp (sha1_bytes x) (sha1_bytes y)

/-! ### C-string view (`src/rfc/util/str.h`)

A view with non-null `_data` is modelled as the list of bytes strictly
before the terminating NUL.  `npos` is `static_cast<std::size_t>(-1)` on a
64-bit `size_t`. -/

/-- `str::npos`, the not-found sentinel: the maximum `std::size_t`. -/
def str_npos : Nat := 2 ^ 64 - 1

/-- `std::strchr` as an index: scan for the first byte equal to `c`; the
terminating NUL takes part in the search, so searching for 0 finds the
terminator (index = length).  Returns the offset from the start, or
`Option.none` when `c` does not occur. -/
def str_strchr : List Nat → Nat → Option Nat
  | [], c => if c = 0 then Option.some 0 else Option.none
  | b :: rest, c =>
      if b = c then Option.some 0 else (str_strchr rest c).map (fun j => j + 1)

/-- Embeds `str::find(char, std::size_t)`: `strchr(_data + pos, c)`,
converting the found pointer to an index from `_data`, `npos` when the
search fails. -/
def str_find (l : List Nat) (c : Nat) (pos : Nat) : Nat :=
  match str_strchr (l.drop pos) c with
  | Option.some j => pos + j
  | Option.none => str_npos

/-- Embeds `str::substr(std::size_t)`: a new view over `_data + pos`,
sharing the buffer (and its terminator). -/
def str_substr (l : List Nat) (pos : Nat) : List Nat := l.drop pos

/-- Embeds `str::front` (const): reads `_data[0]`.  When the view's content
is empty the pointer addresses the terminating NUL, so the byte read is 0. -/
def str_front (l : List Nat) : Nat := l.headD 0

/-- Embeds `str::is(int (*)(const int))`: walk the bytes up to the NUL and
return `false` at the first byte the predicate rejects, `true` at the end. -/
def str_is (l : List Nat) (p : Nat → Bool) : Bool := l.all p

/-- `isdigit` of the C locale over ASCII. -/
def c_isdigit (b : Nat) : Bool := decide (0x30 ≤ b ∧ b ≤ 0x39)

/-- `isupper` of the C locale over ASCII. -/
def c_isupper (b : Nat) : Bool := decide (0x41 ≤ b ∧ b ≤ 0x5A)

/-- `islower` of the C locale over ASCII. -/
def c_islower (b : Nat) : Bool := decide (0x61 ≤ b ∧ b ≤ 0x7A)

/-- `isalpha` of the C locale over ASCII. -/
def c_isalpha (b : Nat) : Bool := c_isupper b || c_islower b

/-- `isalnum` of the C locale over ASCII. -/
def c_isalnum (b : Nat) : Bool := c_isalpha b || c_isdigit b

/-- `isascii`: bytes 0‥0x7F. -/
def c_isascii (b : Nat) : Bool := decide (b ≤ 0x7F)

/-- `isblank` of the C locale: space and horizontal tab. -/
def c_isblank (b : Nat) : Bool := decide (b = 0x20 ∨ b = 0x09)

/-- `iscntrl` of the C locale over ASCII: 0‥0x1F and 0x7F. -/
def c_iscntrl (b : Nat) : Bool := decide (b ≤ 0x1F ∨ b = 0x7F)

/-- `isgraph` of the C locale over ASCII: printable except space. -/
def c_isgraph (b : Nat) : Bool := decide (0x21 ≤ b ∧ b ≤ 0x7E)

/-- `isprint` of the C locale over ASCII: printable including space. -/
def c_isprint (b : Nat) : Bool := decide (0x20 ≤ b ∧ b ≤ 0x7E)

/-- `ispunct` of the C locale over ASCII: graphic but not alphanumeric. -/
def c_ispunct (b : Nat) : Bool := c_isgraph b && !c_isalnum b

/-- `isspace` of the C locale: space and the five control whitespaces. -/
def c_isspace (b : Nat) : Bool := decide (b = 0x20 ∨ (0x09 ≤ b ∧ b ≤ 0x0D))

/-- `isxdigit` of the C locale: decimal digits and the hex letters. -/
def c_isxdigit (b : Nat) : Bool :=
  c_isdigit b || decide (0x41 ≤ b ∧ b ≤ 0x46) || decide (0x61 ≤ b ∧ b ≤ 0x66)

/-- Embeds `str::is_alnum`: `is(isalnum)`. -/
def str_is_alnum (l : List Nat) : Bool := str_is l c_isalnum

/-- Embeds `str::is_alpha`: `is(isalpha)`. -/
def str_is_alpha (l : List Nat) : Bool := str_is l c_isalpha

/-- Embeds `str::is_ascii`: `is(isascii)`. -/
def str_is_ascii (l : List Nat) : Bool := str_is l c_isascii

/-- Embeds `str::is_blank`: `is(isblank)`. -/
def str_is_blank (l : List Nat) : Bool := str_is l c_isblank

/-- Embeds `str::is_cntrl`: `is(iscntrl)`. -/
def str_is_cntrl (l : List Nat) : Bool := str_is l c_iscntrl

/-- Embeds `str::is_digit`: `is(isdigit)`. -/
def str_is_digit (l : List Nat) : Bool := str_is l c_isdigit

/-- Embeds `str::is_graph`: `is(isgraph)`. -/
def str_is_graph (l : List Nat) : Bool := str_is l c_isgraph

/-- Embeds `str::is_lower`: `is(islower)`. -/
def str_is_lower (l : List Nat) : Bool := str_is l c_islower

/-- Embeds `str::is_print`: `is(isprint)`. -/
def str_is_print (l : List Nat) : Bool := str_is l c_isprint

/-- Embeds `str::is_punct`: `is(ispunct)`. -/
def str_is_punct (l : List Nat) : Bool := str_is l c_ispunct

/-- Embeds `str::is_space`: `is(isspace)`. -/
def str_is_space (l : List Nat) : Bool := str_is l c_isspace

/-- Embeds `str::is_upper`: `is(isupper)`. -/
def str_is_upper (l : List Nat) : Bool := str_is l c_isupper

/-- Embeds `str::is_xdigit`: `is(isxdigit)`. -/
def str_is_xdigit (l : List Nat) : Bool := str_is l c_isxdigit

/-! ### Helper lemmas -/

/-- Running a concatenation of operation sequences runs the pieces in
order, an error in the first piece aborting the whole run. -/
lemma jw_run_append (l₁ l₂ : List JwOp) (w : JwWriter) :
    jw_run (l₁ ++ l₂) w =
      match jw_run l₁ w with
      | Except.ok w' => jw_run l₂ w'
      | Except.error e => Except.error e := by
  induction l₁ generalizing w with
  | nil => rfl
  | cons op rest ih =>
      show jw_run (op :: (rest ++ l₂)) w = _
      simp only [jw_run]
      cases h : (jw_step op w).err with
      | none => simpa using ih (jw_step op w).w
      | some e => rfl

/-- A balanced sequence of container operations runs without error from any
writer state and restores the depth it started from. -/
lemma jw_balanced_run {l : List JwOp} (h : JwBalanced l) :
    ∀ w : JwWriter, ∃ t, jw_run l w = Except.ok ⟨w.depth, t⟩ := by
  induction h with
  | nil => exact fun w => ⟨w.tags, rfl⟩
  | @obj l hl ih =>
      intro w
      obtain ⟨t, ht⟩ := ih (jw_begin_object w).w
      refine ⟨t, ?_⟩
      show (match (jw_step JwOp.begin_object w).err with
            | Option.some e => Except.error e
            | Option.none => jw_run (l ++ [JwOp.finish_object]) (jw_step JwOp.begin_object w).w) =
        Except.ok ⟨w.depth, t⟩
      have hdep : (jw_begin_object w).w.depth = w.depth + 1 := rfl
      simp only [jw_step, jw_begin_object, jw_set_state]
      rw [jw_run_append]
      simp only [jw_begin_object, jw_set_state] at ht
      rw [ht]
      simp [jw_run, jw_step, jw_finish_object]
  | @arr l hl ih =>
      intro w
      obtain ⟨t, ht⟩ := ih (jw_begin_array w).w
      refine ⟨t, ?_⟩
      show (match (jw_step JwOp.begin_array w).err with
            | Option.some e => Except.error e
            | Option.none => jw_run (l ++ [JwOp.finish_array]) (jw_step JwOp.begin_array w).w) =
        Except.ok ⟨w.depth, t⟩
      simp only [jw_step, jw_begin_array, jw_set_state]
      rw [jw_run_append]
      simp only [jw_begin_array, jw_set_state] at ht
      rw [ht]
      simp [jw_run, jw_step, jw_finish_array]
  | @app l₁ l₂ h₁ h₂ ih₁ ih₂ =>
      intro w
      obtain ⟨t₁, ht₁⟩ := ih₁ w
      obtain ⟨t₂, ht₂⟩ := ih₂ (⟨w.depth, t₁⟩ : JwWriter)
      exact ⟨t₂, by rw [jw_run_append, ht₁]; exact ht₂⟩

/-- Exact depth accounting for every successful run: each `begin_*` adds
one, each `finish_*` subtracts one, with no truncation — the guarded
decrement never wraps on a run that returns. -/
lemma jw_run_depth :
    ∀ (l : List JwOp) (w w' : JwWriter), jw_run l w = Except.ok w' →
      (w'.depth : ℤ) + jw_finish_count l = (w.depth : ℤ) + jw_begin_count l := by
  intro l
  induction l with
  | nil =>
      intro w w' h
      cases h
      rfl
  | cons op rest ih =>
      intro w w' h
      cases op with
      | begin_object =>
          replace h : jw_run rest (jw_begin_object w).w = Except.ok w' := h
          have := ih _ _ h
          simp only [jw_begin_object, jw_set_state] at this
          simp only [jw_begin_count, jw_finish_count, List.filter, jw_is_begin,
            jw_is_finish, List.length_cons] at this ⊢
          omega
      | begin_array =>
          replace h : jw_run rest (jw_begin_array w).w = Except.ok w' := h
          have := ih _ _ h
          simp only [jw_begin_array, jw_set_state] at this
          simp only [jw_begin_count, jw_finish_count, List.filter, jw_is_begin,
            jw_is_finish, List.length_cons] at this ⊢
          omega
      | finish_object =>
          by_cases hd : w.depth = 0
          · exfalso
            have : jw_run (JwOp.finish_object :: rest) w = Except.error JwError.assertion_failure := by
              simp [jw_run, jw_step, jw_finish_object, hd]
            rw [this] at h
            cases h
          · have hstep : (jw_step JwOp.finish_object w).err = Option.none := by
              simp [jw_step, jw_finish_object, hd]
            replace h : jw_run rest (jw_step JwOp.finish_object w).w = Except.ok w' := by
              rw [jw_run] at h
              rw [hstep] at h
              exact h
            have := ih _ _ h
            have hw : (jw_step JwOp.finish_object w).w.depth = w.depth - 1 := by
              simp [jw_step, jw_finish_object, hd]
            rw [hw] at this
            simp only [jw_begin_count, jw_finish_count, List.filter, jw_is_begin,
              jw_is_finish, List.length_cons] at this ⊢
            omega
      | finish_array =>
          by_cases hd : w.depth = 0
          · exfalso
            have : jw_run (JwOp.finish_array :: rest) w = Except.error JwError.assertion_failure := by
              simp [jw_run, jw_step, jw_finish_array, hd]
            rw [this] at h
            cases h
          · have hstep : (jw_step JwOp.finish_array w).err = Option.none := by
              simp [jw_step, jw_finish_array, hd]
            replace h : jw_run rest (jw_step JwOp.finish_array w).w = Except.ok w' := by
              rw [jw_run] at h
              rw [hstep] at h
              exact h
            have := ih _ _ h
            have hw : (jw_step JwOp.finish_array w).w.depth = w.depth - 1 := by
              simp [jw_step, jw_finish_array, hd]
            rw [hw] at this
            simp only [jw_begin_count, jw_finish_count, List.filter, jw_is_begin,
              jw_is_finish, List.length_cons] at this ⊢
            omega

/-- When `strchr` reports an offset, the byte at that offset of the scanned
buffer (reading the terminating NUL as 0 past the content) is the byte
searched for. -/
lemma str_strchr_headD (c : Nat) :
    ∀ (l : List Nat) (j : Nat), str_strchr l c = Option.some j →
      (l.drop j).headD 0 = c := by
  intro l
  induction l with
  | nil =>
      intro j h
      by_cases hc : c = 0
      · simp only [str_strchr, if_pos hc, Option.some.injEq] at h
        subst h
        simpa using hc.symm
      · simp [str_strchr, hc] at h
  | cons b rest ih =>
      intro j h
      by_cases hb : b = c
      · simp only [str_strchr, if_pos hb, Option.some.injEq] at h
        subst h
        simpa using hb
      · simp only [str_strchr, if_neg hb] at h
        rcases hj : str_strchr rest c with _ | j'
        · rw [hj] at h
          simp at h
        · rw [hj] at h
          simp only [Option.map_some', Option.some.injEq] at h
          subst h
          simpa [List.drop_succ_cons] using ih j' hj

/-! ### Claim theorems -/

/-- C1.  The separator the source emits versus the §4.1 table.  The
embedded `json_writer::insert_separator` writes a byte only when the
top-of-stack state is `array_element` (a `,`); for `object_value` it writes
nothing where the table requires a `,`, and for `object_key` it writes
nothing where the table requires a `:` (indeed no path of the source ever
writes a `:`).  Moreover a value-emitting call leaves the state unchanged
(shown here for `write_null` on a fresh writer), so the state is not
updated per the table either. -/
theorem jw_separator_code_vs_spec :
    jw_insert_separator JwState.object_value = [] ∧
    jw_insert_separator JwState.object_key = [] ∧
    jw_separator_spec JwState.object_value = [0x2C] ∧
    jw_separator_spec JwState.object_key = [0x3A] ∧
    jw_insert_separator JwState.array_element = [0x2C] ∧
    jw_separator_spec JwState.array_element = [0x2C] ∧
    (jw_write_null jw_fresh).w = jw_fresh :=
  ⟨rfl, rfl, rfl, rfl, rfl, rfl, rfl⟩

/-- C2.  No poison policy exists in the source: after
`write_number(double)` raises the non-finite error on a fresh writer, the
writer state is untouched, and a subsequent `write_null` on that same
writer reports no error and writes `null` to the sink instead of being a
no-op returning the first error; `flush` likewise swallows a failed
`fflush`. -/
theorem jw_no_poison_after_error :
    (jw_write_number_double (fun _ => []) CDouble.nan jw_fresh).err =
      Option.some (JwError.invalid_argument "NaN cannot be serialized in JSON") ∧
    (jw_write_number_double (fun _ => []) CDouble.nan jw_fresh).w = jw_fresh ∧
    (jw_write_null jw_fresh).err = Option.none ∧
    (jw_write_null jw_fresh).out = [0x6E, 0x75, 0x6C, 0x6C] ∧
    (jw_flush false jw_fresh).err = Option.none ∧
    (jw_flush false jw_fresh).w = jw_fresh :=
  ⟨rfl, rfl, rfl, rfl, rfl, rfl⟩

set_option maxRecDepth 8192 in
/-- C3.  Escaping: for a non-null string the emitted segment is the input
enclosed in quotes with each byte mapped by `write_char`; `write_char`
agrees with the spec's escaping table on every byte; and each escaped byte
decodes back to itself under the RFC 4627 string grammar. -/
theorem jw_write_string_escaping :
    (∀ (w : JwWriter) (bs : List Nat),
        (jw_write_string (Option.some bs) w).out =
          jw_insert_separator (jw_top w) ++ [0x22] ++
            (bs.map jw_write_char).flatten ++ [0x22]) ∧
    (∀ b : Fin 256, jw_write_char b.val = jw_escape_spec b.val) ∧
    (∀ b : Fin 256, jw_decode_char (jw_write_char b.val) = Option.some (b.val, [])) :=
  ⟨fun _ _ => rfl, by decide, by decide⟩

/-- C4.  For every NaN or infinite argument, `write_number(double)` fails
with the non-finite rejection error (a thrown `std::invalid_argument`, the
spec taxonomy's `non_finite_number`), the writer state is unchanged and the
sink receives no bytes from the call. -/
theorem jw_write_number_nonfinite_rejected (fmt : ℚ → List Nat) (w : JwWriter)
    (v : CDouble)
    (h : v = CDouble.nan ∨ v = CDouble.inf true ∨ v = CDouble.inf false) :
    ∃ m, jw_write_number_double fmt v w =
        ⟨Option.some (JwError.invalid_argument m), w, []⟩ ∧
      (m = "NaN cannot be serialized in JSON" ∨
        m = "Infinity cannot be serialized in JSON") := by
  rcases h with rfl | rfl | rfl
  · exact ⟨_, rfl, Or.inl rfl⟩
  · exact ⟨_, rfl, Or.inr rfl⟩
  · exact ⟨_, rfl, Or.inr rfl⟩

/-- C4 witness: the theorem applied to a NaN argument on a fresh writer. -/
theorem jw_write_number_nonfinite_rejected_witness :
    (CDouble.nan = CDouble.nan ∨ CDouble.nan = CDouble.inf true ∨
      CDouble.nan = CDouble.inf false) ∧
    ∃ m, jw_write_number_double (fun _ => []) CDouble.nan jw_fresh =
        ⟨Option.some (JwError.invalid_argument m), jw_fresh, []⟩ ∧
      (m = "NaN cannot be serialized in JSON" ∨
        m = "Infinity cannot be serialized in JSON") :=
  ⟨Or.inl rfl,
   jw_write_number_nonfinite_rejected (fun _ => []) jw_fresh CDouble.nan (Or.inl rfl)⟩

/-- C5.  Depth discipline: every successful run of container operations
satisfies exact (untruncated) depth accounting, so the counter never
underflows on a completed run; every balanced sequence runs from a fresh
writer without error and ends at depth zero; and a `finish_*` at depth zero
is stopped by the assertion with the writer unchanged rather than wrapping
the counter. -/
theorem jw_depth_invariant :
    (∀ (l : List JwOp) (w w' : JwWriter), jw_run l w = Except.ok w' →
        (w'.depth : ℤ) + jw_finish_count l = (w.depth : ℤ) + jw_begin_count l) ∧
    (∀ l : List JwOp, JwBalanced l →
        ∃ w', jw_run l jw_fresh = Except.ok w' ∧ w'.depth = 0) ∧
    (∀ w : JwWriter, w.depth = 0 →
        (jw_finish_object w).err = Option.some JwError.assertion_failure ∧
        (jw_finish_object w).w = w ∧
        (jw_finish_array w).err = Option.some JwError.assertion_failure ∧
        (jw_finish_array w).w = w) := by
  refine ⟨jw_run_depth, fun l h => ?_, fun w h0 => ?_⟩
  · obtain ⟨t, ht⟩ := jw_balanced_run h jw_fresh
    exact ⟨⟨0, t⟩, ht, rfl⟩
  · simp [jw_finish_object, jw_finish_array, h0]

/-- C5 witness: the theorem applied to the balanced sequence
`begin_object; finish_object` and to a fresh writer at depth zero. -/
theorem jw_depth_invariant_witness :
    (((⟨0, Function.update (fun _ => JwState.none) 1 JwState.object_begin⟩ : JwWriter).depth : ℤ) +
        jw_finish_count [JwOp.begin_object, JwOp.finish_object] =
      (jw_fresh.depth : ℤ) + jw_begin_count [JwOp.begin_object, JwOp.finish_object]) ∧
    (∃ w', jw_run [JwOp.begin_object, JwOp.finish_object] jw_fresh = Except.ok w' ∧
        w'.depth = 0) ∧
    ((jw_finish_object jw_fresh).err = Option.some JwError.assertion_failure ∧
      (jw_finish_object jw_fresh).w = jw_fresh ∧
      (jw_finish_array jw_fresh).err = Option.some JwError.assertion_failure ∧
      (jw_finish_array jw_fresh).w = jw_fresh) :=
  ⟨jw_depth_invariant.1 [JwOp.begin_object, JwOp.finish_object] jw_fresh
      ⟨0, Function.update (fun _ => JwState.none) 1 JwState.object_begin⟩ rfl,
   jw_depth_invariant.2.1 [JwOp.begin_object, JwOp.finish_object]
      (JwBalanced.obj JwBalanced.nil),
   jw_depth_invariant.2.2 jw_fresh rfl⟩

/-- C6.  A null string pointer: `write_string(nullptr)` behaves exactly as
`write_null` — it emits the literal `null` (after the separator) and not an
empty or quoted string. -/
theorem jw_write_string_null_is_write_null :
    ∀ w : JwWriter, jw_write_string Option.none w = jw_write_null w ∧
      (jw_write_string Option.none w).out =
        jw_insert_separator (jw_top w) ++ [0x6E, 0x75, 0x6C, 0x6C] :=
  fun _ => ⟨rfl, rfl⟩

/-- C7.  The pointer constructor evaluated at the buffer whose byte `i` is
`i + 1`: byte 0 is copied, but byte 1 of the constructed digest is 0 while
the source buffer holds 2 there — `*_data = *data` copies a single byte,
not 20. -/
theorem sha1_ptr_ctor_copies_single_byte :
    sha1_from_ptr (fun i => (i : Nat) + 1) 0 = 1 ∧
    sha1_from_ptr (fun i => (i : Nat) + 1) 1 = 0 ∧
    ((fun i : Fin 20 => (i : Nat) + 1) : Fin 20 → Nat) 1 = 2 := by
  decide

/-- C8.  The copy constructor evaluated at the all-ones digest: the copy
keeps byte 0 but zeroes byte 1, so `compare` on the copy and the original
returns -1, not 0 — copying does not preserve equality under `compare`. -/
theorem sha1_copy_ctor_breaks_compare :
    sha1_copy (fun _ => 1) 1 = 0 ∧
    ((fun _ : Fin 20 => 1) : Fin 20 → Nat) 1 = 1 ∧
    sha1_compare (sha1_copy (fun _ => 1)) (fun _ => 1) = -1 := by
  decide

/-- C9.  When `find(c)` returns an index other than `npos`, the view
returned by `substr` at that index starts with the byte `c` — including the
case `c = 0`, where `strchr` finds the terminating NUL and `front` of the
resulting empty view reads that NUL. -/
theorem str_find_substr_front (l : List Nat) (c : Nat)
    (h : str_find l c 0 ≠ str_npos) :
    str_front (str_substr l (str_find l c 0)) = c := by
  rcases hs : str_strchr l c with _ | j
  · exfalso
    apply h
    simp [str_find, List.drop_zero, hs]
  · have hf : str_find l c 0 = j := by
      simp [str_find, List.drop_zero, hs]
    rw [hf]
    exact str_strchr_headD c l j hs

/-- C9 witness: the theorem applied to the one-byte view `a` and the byte
`a` (0x61), where `find` returns 0. -/
theorem str_find_substr_front_witness :
    str_find [0x61] 0x61 0 ≠ str_npos ∧
    str_front (str_substr [0x61] (str_find [0x61] 0x61 0)) = 0x61 :=
  ⟨by decide, str_find_substr_front [0x61] 0x61 (by decide)⟩

/-- C10.  On the empty view (non-null data whose first byte is NUL, modelled
as the empty content list) the scanning loop of `is` runs zero iterations,
so `is` returns `true` for every predicate, and each of the thirteen named
classification wrappers returns `true` vacuously. -/
theorem str_empty_classification_vacuous :
    (∀ p : Nat → Bool, str_is [] p = true) ∧
    str_is_alnum [] = true ∧ str_is_alpha [] = true ∧ str_is_ascii [] = true ∧
    str_is_blank [] = true ∧ str_is_cntrl [] = true ∧ str_is_digit [] = true ∧
    str_is_graph [] = true ∧ str_is_lower [] = true ∧ str_is_print [] = true ∧
    str_is_punct [] = true ∧ str_is_space [] = true ∧ str_is_upper [] = true ∧
    str_is_xdigit [] = true :=
  ⟨fun _ => rfl, rfl, rfl, rfl, rfl, rfl, rfl, rfl, rfl, rfl, rfl, rfl, rfl, rfl⟩
